import Mathlib

/-!
# Triadex — Quote Resolution & Orchestration Core: a shallow embedding

This file embeds the core of the Triadex repository in Lean 4 and proves
properties of the embedded code.

* `src/resolver.py` — symbol resolution (`resolve_symbol`, `_looks_b3_stock`,
  the `_EXCEPTIONS` table) is embedded at character-list level, with
  Python `str.strip` / `str.upper` modeled on the ASCII fragment they act on
  for ticker inputs.
* `src/providers.py` — the provider parse functions (`parse_brapi`,
  `parse_yahoo`, `parse_stooq`), validation (`QuoteOrchestrator._validate`),
  the TTL cache and the fallback loop (`QuoteOrchestrator.get_quote`) are
  embedded over an environment that fixes the outcome of each upstream
  fetch (`None` standing for the fetch functions returning no data, which
  in the source also covers every transport fault, as each fetch function
  catches all exceptions internally, converting every fault to no data).
* Python floats are modeled by `PyFloat` (a rational, NaN, or a signed
  infinity); finite-float arithmetic in `_yf_daily_change_pct` is modeled
  over the rationals.
-/

namespace Triadex

/-! ## Character-level helpers (Python str.strip / str.upper, ASCII fragment) -/

/-- Whitespace as stripped by Python `str.strip()` (ASCII fragment:
space, tab, newline, carriage return, vertical tab, form feed). -/
def isWs (c : Char) : Bool :=
  c.toNat = 32 || c.toNat = 9 || c.toNat = 10 || c.toNat = 13 ||
  c.toNat = 11 || c.toNat = 12

/-- Python `str.upper()` on one character (ASCII fragment). -/
def upChar (c : Char) : Char :=
  if c.isLower then Char.ofNat (c.toNat - 32) else c

/-- Python `str.strip()`: drop leading and trailing whitespace. -/
def trim (l : List Char) : List Char :=
  ((l.dropWhile isWs).reverse.dropWhile isWs).reverse

/-- The uppercased, stripped input: `q.strip().upper()` in the source. -/
def upperTrim (q : List Char) : List Char :=
  (trim q).map upChar

/-- Characters of a string literal. -/
def strL (s : String) : List Char := s.data

/-- Python `s.endswith(suf)`. -/
def endsWithL (l suf : List Char) : Bool := decide (suf <:+ l)

/-! ## The resolver (`src/resolver.py`) -/

/-- The `ResolvedSymbol` model of `src/schemas.py`, at character-list level. -/
structure BResolved where
  symbol : List Char
  exchange : String
  name : List Char
deriving DecidableEq, Repr

/-- The `_looks_b3_stock` test: `re.fullmatch(r"[A-Z]{4}\d{1,2}", s)` — exactly four
uppercase letters followed by one or two digits. -/
def matches4 (l : List Char) : Bool :=
  match l with
  | [a, b, c, d, e] => a.isUpper && b.isUpper && c.isUpper && d.isUpper && e.isDigit
  | [a, b, c, d, e, f] =>
      a.isUpper && b.isUpper && c.isUpper && d.isUpper && e.isDigit && f.isDigit
  | _ => false

/-- Python `u.replace(".SA", "")` (left-to-right, non-overlapping). -/
def replaceSA : List Char → List Char
  | '.' :: 'S' :: 'A' :: rest => replaceSA rest
  | c :: rest => c :: replaceSA rest
  | [] => []

/-- The `resolve_symbol` function of `src/resolver.py`. The two-entry `_EXCEPTIONS`
dict is rendered as its two key tests; the branches follow the source
order: exceptions, B3-stock shape, "11" fund suffix, explicit ".SA",
general fall-through. -/
def resolveSymbol (q : List Char) : List Char × BResolved :=
  if upperTrim q = strL "IBOV" then
    (trim q, ⟨strL "^BVSP", "B3", strL "Ibovespa"⟩)
  else if upperTrim q = strL "WIN" then
    (trim q, ⟨strL "^BVSP", "B3", strL "Ibovespa"⟩)
  else if matches4 (upperTrim q) = true ∧ endsWithL (upperTrim q) (strL ".SA") = false then
    (trim q, ⟨upperTrim q ++ strL ".SA", "B3", upperTrim q⟩)
  else if endsWithL (upperTrim q) (strL "11") = true ∧
      endsWithL (upperTrim q) (strL ".SA") = false then
    (trim q, ⟨upperTrim q ++ strL ".SA", "B3", upperTrim q⟩)
  else if endsWithL (upperTrim q) (strL ".SA") = true then
    (trim q, ⟨upperTrim q, "B3", replaceSA (upperTrim q)⟩)
  else
    (trim q, ⟨upperTrim q, "AUTO", upperTrim q⟩)

/-- The shape demanded by the spec, namely "1–4 letters followed by 1–2 digits", written from the
spec's words for comparison with the source's `_looks_b3_stock`. -/
def specShape14 (l : List Char) : Bool :=
  let letters := l.takeWhile (fun c => c.isUpper)
  let rest := l.drop letters.length
  decide (1 ≤ letters.length) && decide (letters.length ≤ 4) &&
  decide (1 ≤ rest.length) && decide (rest.length ≤ 2) &&
  rest.all (fun c => c.isDigit)

/-! ## Data model (`src/schemas.py`) and Python float values -/

/-- A Python float value: a finite value (modeled as a rational), NaN, or a
signed infinity. -/
inductive PyFloat where
  | fin (q : ℚ)
  | nan
  | inf
  | ninf
deriving DecidableEq, Repr

/-- Python `math.isnan`. -/
def PyFloat.isnanB : PyFloat → Bool
  | .nan => true
  | _ => false

/-- Python `x <= 0` on a float (`nan <= 0` and `inf <= 0` are false,
`-inf <= 0` is true). -/
def PyFloat.leZeroB : PyFloat → Bool
  | .fin q => decide (q ≤ 0)
  | .nan => false
  | .inf => false
  | .ninf => true

/-- Python truthiness of an optional float (`None`, `0.0` are falsy). -/
def ptruthy : Option PyFloat → Bool
  | none => false
  | some (.fin q) => decide (q ≠ 0)
  | some _ => true

/-- Python `a or b` on optional floats. -/
def pOr (a b : Option PyFloat) : Option PyFloat :=
  if ptruthy a then a else b

/-- Python `a or b` where `a` is an optional string and `b` a string
(the empty string is falsy). -/
def sOr (a : Option String) (b : String) : String :=
  match a with
  | some s => if s = "" then b else s
  | none => b

/-- Python `a or b` on two optional strings. -/
def sOrOpt (a b : Option String) : Option String :=
  match a with
  | some s => if s = "" then b else some s
  | none => b

/-- Python `if not q.price.currency` (absent or empty string). -/
def currencyFalsy : Option String → Bool
  | none => true
  | some s => decide (s = "")

/-- The `ResolvedSymbol` model of `src/schemas.py` at `String` level, as consumed by
the orchestrator. -/
structure RSym where
  symbol : String
  exchange : String
  name : String
deriving DecidableEq, Repr

/-- The `QuoteOutPrice` model of `src/schemas.py`. -/
structure QuoteOutPrice where
  last : Option PyFloat
  change_pct : Option PyFloat
  currency : Option String
  asof : Option String
  source : String
deriving DecidableEq, Repr

/-- The `QuoteOutMarketCap` model of `src/schemas.py`. -/
structure QuoteOutMarketCap where
  value : Option PyFloat
  currency : Option String
deriving DecidableEq, Repr

/-- The `QuoteOutVolume` model of `src/schemas.py`. -/
structure QuoteOutVolume where
  value : Option PyFloat
deriving DecidableEq, Repr

/-- The `QuoteOutStatus` model of `src/schemas.py`. -/
structure QuoteOutStatus where
  confidence : String
  notes : List String
deriving DecidableEq, Repr

/-- The `QuoteInternal` model of `src/schemas.py`. -/
structure QuoteInternal where
  price : QuoteOutPrice
  market_cap : QuoteOutMarketCap
  volume : QuoteOutVolume
  status : QuoteOutStatus
deriving DecidableEq, Repr

/-! ## Provider adapters (`src/providers.py`) -/

/-- The `_brl_if_b3` default: `"BRL" if symbol.upper().endswith(".SA") else "USD"`. -/
def brlIfB3 (symbol : String) : String :=
  if endsWithL (symbol.data.map upChar) (strL ".SA") then "BRL" else "USD"

/-- The fields `parse_brapi` reads from a BRAPI `results[0]` payload,
typed (each field optionally absent). -/
structure BrapiRaw where
  regularMarketPrice : Option PyFloat
  close : Option PyFloat
  price : Option PyFloat
  regularMarketChangePercent : Option PyFloat
  changePercent : Option PyFloat
  currency : Option String
  marketCap : Option PyFloat
  regularMarketVolume : Option PyFloat
  volume : Option PyFloat
  regularMarketTime : Option String
  updatedAt : Option String
deriving DecidableEq, Repr

/-- The `parse_brapi` function of `src/providers.py`; `nowIso` stands for
`_now_iso_utc()` at call time. -/
def parseBrapi (nowIso : String) (symbol : String) (data : BrapiRaw) : QuoteInternal :=
  let last := pOr (pOr data.regularMarketPrice data.close) data.price
  let change_pct := pOr data.regularMarketChangePercent data.changePercent
  let currency := sOr data.currency (brlIfB3 symbol)
  let updated_at := sOr (sOrOpt data.regularMarketTime data.updatedAt) nowIso
  { price := { last := last, change_pct := change_pct, currency := some currency,
               asof := some updated_at, source := "brapi" }
    market_cap := { value := data.marketCap, currency := some currency }
    volume := { value := pOr data.regularMarketVolume data.volume }
    status := { confidence := "high", notes := [] } }

/-- The dictionary built by `fetch_yahoo_sync` and consumed by
`parse_yahoo`. -/
structure YahooRaw where
  last : Option PyFloat
  market_cap : Option PyFloat
  volume : Option PyFloat
  currency : Option String
  change_pct : Option PyFloat
deriving DecidableEq, Repr

/-- The `parse_yahoo` function of `src/providers.py`. -/
def parseYahoo (nowIso : String) (symbol : String) (data : YahooRaw) : QuoteInternal :=
  let currency := sOr data.currency (brlIfB3 symbol)
  let notes : List String :=
    if data.change_pct = none then
      ["Exibindo último preço/fechamento (var. diária indisponível)"]
    else []
  { price := { last := data.last, change_pct := data.change_pct,
               currency := some currency, asof := some nowIso, source := "yahoo" }
    market_cap := { value := data.market_cap, currency := some currency }
    volume := { value := data.volume }
    status := { confidence := if notes = [] then "high" else "medium", notes := notes } }

/-- The dictionary built by `fetch_stooq` and consumed by `parse_stooq`. -/
structure StooqRaw where
  last : Option PyFloat
  volume : Option PyFloat
  currency : Option String
  asof : Option String
deriving DecidableEq, Repr

/-- The `parse_stooq` function of `src/providers.py`. -/
def parseStooq (nowIso : String) (symbol : String) (data : StooqRaw) : QuoteInternal :=
  { price := { last := data.last, change_pct := none,
               currency := some (sOr data.currency (brlIfB3 symbol)),
               asof := some (sOr data.asof nowIso), source := "stooq" }
    market_cap := { value := none,
                    currency := some (sOr data.currency (brlIfB3 symbol)) }
    volume := { value := data.volume }
    status := { confidence := "medium",
                notes := ["Último fechamento obtido via Stooq"] } }

/-- The `_yf_daily_change_pct` function of `src/providers.py`, over the rationals
(finite-float arithmetic idealized): first the `info.previousClose`
strategy, then the two-daily-candles strategy. `infoPrev` is
`t.info.get("previousClose")` (absent on error), `hist2` holds the last
two daily closes `(Close[-2], Close[-1])` when at least two candles are
available (absent on error). -/
def yfDailyChangePct (infoPrev : Option ℚ) (hist2 : Option (ℚ × ℚ))
    (last : Option ℚ) : Option ℚ :=
  match last, infoPrev with
  | some l, some prev =>
    if prev ≠ 0 ∧ 0 < prev then some ((l / prev - 1) * 100)
    else
      match hist2 with
      | some (prevC, _) =>
        if 0 < prevC then some ((l / prevC - 1) * 100) else none
      | none => none
  | lastOpt, _ =>
    match hist2 with
    | some (prevC, lastC) =>
      let curr := lastOpt.getD lastC
      if 0 < prevC then some ((curr / prevC - 1) * 100) else none
    | none => none

/-! ## The orchestrator (`QuoteOrchestrator.get_quote` and `_validate`) -/

/-- First statement of `QuoteOrchestrator._validate`: flag a present but
NaN or non-positive price (append the note, then force confidence to
"low"). -/
def validatePrice (q : QuoteInternal) : QuoteInternal :=
  if q.price.last.isSome ∧
      ((q.price.last.map PyFloat.isnanB).getD false = true ∨
       (q.price.last.map PyFloat.leZeroB).getD false = true) then
    { q with status := { confidence := "low",
                         notes := q.status.notes ++ ["Preço inválido ou ausente"] } }
  else q

/-- Second statement of `QuoteOrchestrator._validate`: default an
absent/empty currency. The source line
`q.price.currency = _brl_if_b3("X.SA")` is kept literally. -/
def validateCurrency (q : QuoteInternal) : QuoteInternal :=
  if currencyFalsy q.price.currency then
    { q with
      price := { q.price with currency := some (brlIfB3 "X.SA") }
      status := { q.status with
                  notes := q.status.notes ++ ["Moeda inferida automaticamente"] } }
  else q

/-- The `_validate` method: the two statements in source order. -/
def validate (q : QuoteInternal) : QuoteInternal :=
  validateCurrency (validatePrice q)

/-- The fixed outcome of each upstream fetch during one call, plus the
configuration read at module load: `BRAPI_TOKEN` (stripped; empty means
unconfigured) and the wall-clock ISO timestamp. A `none` outcome covers
`fetch_*` returning `None` (no data, any transport or decode fault) as
well as a falsy payload. -/
structure Env where
  brapiToken : String
  nowIso : String
  brapiRaw : Option BrapiRaw
  yahooRaw : Option YahooRaw
  stooqRaw : Option StooqRaw
deriving Repr

/-- One iteration body of the provider loop: fetch and parse provider `p`
(`None` when the provider yields no data). -/
def tryProvider (env : Env) (sym : String) (p : String) : Option QuoteInternal :=
  if p = "brapi" then env.brapiRaw.map (parseBrapi env.nowIso sym)
  else if p = "yahoo" then env.yahooRaw.map (parseYahoo env.nowIso sym)
  else if p = "stooq" then env.stooqRaw.map (parseStooq env.nowIso sym)
  else none

/-- The provider list chosen from the configuration:
`["brapi", "yahoo", "stooq"]` when a BRAPI token is configured, else
`["yahoo", "stooq"]`. -/
def baseProviders (tok : String) : List String :=
  if tok ≠ "" then ["brapi", "yahoo", "stooq"] else ["yahoo", "stooq"]

/-- Provider ordering of `get_quote`: the base list, with `prefer` moved to
the front when it occurs in the list. -/
def providersOrder (tok : String) (prefer : Option String) : List String :=
  let base := baseProviders tok
  match prefer with
  | some p => if p ∈ base then p :: base.erase p else base
  | none => base

/-- Python `prefer or "auto"` (by truthiness, `None` and `""` both fall back
to `"auto"`). -/
def preferOr : Option String → String
  | none => "auto"
  | some s => if s = "" then "auto" else s

/-- The cache key, symbol and preference joined by a colon in one string. -/
def cacheKey (symbol : String) (prefer : Option String) : String :=
  symbol ++ ":" ++ preferOr prefer

/-- The TTL cache: entries `(key, insertion time, value)`, newest first. -/
abbrev CacheT := List (String × Nat × QuoteInternal)

/-- The `cachetools.TTLCache` lookup: an entry is visible while
`now < inserted + ttl`. -/
def cacheLookup (c : CacheT) (k : String) (now ttl : Nat) : Option QuoteInternal :=
  match c.find? (fun e => e.1 == k) with
  | some (_, t, v) => if now < t + ttl then some v else none
  | none => none

/-- The cache write `self.cache[cache_key] = parsed`: the new entry shadows any older one
for the same key. -/
def cacheInsert (c : CacheT) (k : String) (now : Nat) (v : QuoteInternal) : CacheT :=
  (k, now, v) :: c

/-- The provider loop of `get_quote`: try providers in order, validate and
return the first success, recording the failed providers before it. -/
def runProviders (env : Env) (sym : String) :
    List String → Option (List String × String × QuoteInternal)
  | [] => none
  | p :: ps =>
    match tryProvider env sym p with
    | some parsed => some ([], p, validate parsed)
    | none =>
      match runProviders env sym ps with
      | some (pre, q, v) => some (p :: pre, q, v)
      | none => none

/-- The outcome of one `get_quote` call: the returned quote or the raised
`RuntimeError` message, the cache afterwards, and the providers attempted
(in order). -/
structure GQ where
  result : Except String QuoteInternal
  cache : CacheT
  attempted : List String
deriving Repr

/-- The `get_quote` method of `src/providers.py`: cache check, then
the provider loop, then the raised `RuntimeError` (with `last_error` always
`None` here, since the typed fetch outcomes never raise). -/
def getQuote (env : Env) (cache : CacheT) (now ttl : Nat) (resolved : RSym)
    (prefer : Option String) : GQ :=
  match cacheLookup cache (cacheKey resolved.symbol prefer) now ttl with
  | some v => ⟨Except.ok v, cache, []⟩
  | none =>
    match runProviders env resolved.symbol (providersOrder env.brapiToken prefer) with
    | some (pre, p, v) =>
      ⟨Except.ok v, cacheInsert cache (cacheKey resolved.symbol prefer) now v,
        pre ++ [p]⟩
    | none =>
      ⟨Except.error ("Todas as fontes falharam para " ++ resolved.symbol ++ ". "),
        cache, providersOrder env.brapiToken prefer⟩

/-- The claim wording of C4: "non-positive or non-finite (NaN or
infinite)", written from the claim for comparison with `_validate`. -/
def specNonposOrNonfinite : PyFloat → Bool
  | .fin q => decide (q ≤ 0)
  | _ => true

/-! ## Character lemmas -/

lemma char_isLower_bounds {c : Char} (h : c.isLower = true) :
    97 ≤ c.toNat ∧ c.toNat ≤ 122 := by
  simp [Char.isLower] at h
  exact ⟨h.1, h.2⟩

lemma char_toNat_ofNat {n : Nat} (h1 : 65 ≤ n) (h2 : n ≤ 90) :
    (Char.ofNat n).toNat = n := by
  have hv : n.isValidChar := Or.inl (by omega)
  simp [Char.ofNat, hv, Char.ofNatAux, Char.toNat, UInt32.toNat, BitVec.toNat_ofNatLt]

lemma char_ofNat_not_lower {n : Nat} (h1 : 65 ≤ n) (h2 : n ≤ 90) :
    (Char.ofNat n).isLower = false := by
  have hv : n.isValidChar := Or.inl (by omega)
  simp [Char.ofNat, hv, Char.ofNatAux, Char.isLower, UInt32.le_def,
    UInt32.toNat, BitVec.toNat_ofNatLt, BitVec.le_def]
  omega

lemma upChar_idem (c : Char) : upChar (upChar c) = upChar c := by
  by_cases h : c.isLower
  · have h' := char_isLower_bounds h
    have hnl : (Char.ofNat (c.toNat - 32)).isLower = false :=
      char_ofNat_not_lower (by omega) (by omega)
    unfold upChar
    simp [h, hnl]
  · unfold upChar
    simp [h]

lemma isWs_upChar (c : Char) : isWs (upChar c) = isWs c := by
  by_cases h : c.isLower
  · have h' := char_isLower_bounds h
    have ht : (Char.ofNat (c.toNat - 32)).toNat = c.toNat - 32 :=
      char_toNat_ofNat (by omega) (by omega)
    have hL : isWs (Char.ofNat (c.toNat - 32)) = false := by
      simp [isWs, ht]
      omega
    have hR : isWs c = false := by
      simp [isWs]
      omega
    unfold upChar
    simp [h, hL, hR]
  · unfold upChar
    simp [h]

lemma map_upChar_idem (l : List Char) :
    (l.map upChar).map upChar = l.map upChar := by
  rw [List.map_map]
  exact List.map_congr_left fun c _ => upChar_idem c

/-! ## Trim lemmas -/

lemma dropWhile_head_not {p : Char → Bool} {l : List Char} {c : Char}
    (h : (l.dropWhile p).head? = some c) : p c = false := by
  induction l with
  | nil => simp [List.dropWhile] at h
  | cons a t ih =>
    by_cases hp : p a
    · rw [List.dropWhile_cons_of_pos hp] at h
      exact ih h
    · rw [List.dropWhile_cons_of_neg hp] at h
      simp at h
      subst h
      simpa using hp

lemma dropWhile_eq_self_of_head {p : Char → Bool} {l : List Char}
    (h : ∀ c, l.head? = some c → p c = false) : l.dropWhile p = l := by
  cases l with
  | nil => rfl
  | cons a t => exact List.dropWhile_cons_of_neg (by simp [h a rfl])

lemma trim_head_not {l : List Char} {c : Char}
    (h : (trim l).head? = some c) : isWs c = false := by
  unfold trim at h
  obtain ⟨t, ht⟩ :=
    List.dropWhile_suffix (l := (l.dropWhile isWs).reverse) (p := isWs)
  have hd1 : l.dropWhile isWs
      = ((l.dropWhile isWs).reverse.dropWhile isWs).reverse ++ t.reverse := by
    have h2 := congrArg List.reverse ht
    rw [List.reverse_append, List.reverse_reverse] at h2
    exact h2.symm
  cases hrev : ((l.dropWhile isWs).reverse.dropWhile isWs).reverse with
  | nil => rw [hrev] at h; simp at h
  | cons x xs =>
    rw [hrev] at h
    simp at h
    have hd1' : (l.dropWhile isWs).head? = some x := by
      rw [hd1, hrev]; rfl
    have hx := dropWhile_head_not hd1'
    rwa [h] at hx

lemma trim_getLast_not {l : List Char} {c : Char}
    (h : (trim l).getLast? = some c) : isWs c = false := by
  unfold trim at h
  rw [List.getLast?_reverse] at h
  exact dropWhile_head_not h

lemma trim_eq_self {l : List Char}
    (hh : ∀ c, l.head? = some c → isWs c = false)
    (hl : ∀ c, l.getLast? = some c → isWs c = false) : trim l = l := by
  unfold trim
  rw [dropWhile_eq_self_of_head hh]
  rw [dropWhile_eq_self_of_head (by simpa [List.head?_reverse] using hl)]
  exact List.reverse_reverse l

lemma upperTrim_head_not {q : List Char} {c : Char}
    (h : (upperTrim q).head? = some c) : isWs c = false := by
  unfold upperTrim at h
  rw [List.head?_map] at h
  cases hh : (trim q).head? with
  | none => rw [hh] at h; simp at h
  | some d =>
    rw [hh] at h
    simp at h
    rw [← h, isWs_upChar]
    exact trim_head_not hh

lemma upperTrim_getLast_not {q : List Char} {c : Char}
    (h : (upperTrim q).getLast? = some c) : isWs c = false := by
  unfold upperTrim at h
  rw [List.getLast?_map] at h
  cases hh : (trim q).getLast? with
  | none => rw [hh] at h; simp at h
  | some d =>
    rw [hh] at h
    simp at h
    rw [← h, isWs_upChar]
    exact trim_getLast_not hh

lemma upperTrim_map_upChar (q : List Char) :
    (upperTrim q).map upChar = upperTrim q := by
  unfold upperTrim
  exact map_upChar_idem _

/-! ## Suffix lemmas -/

lemma endsWithL_append_self (u v : List Char) : endsWithL (u ++ v) v = true := by
  simp only [endsWithL, decide_eq_true_eq]
  exact List.suffix_append u v

lemma endsWithL_getLast {u v : List Char} {c : Char} (h : endsWithL u v = true)
    (hv : v.getLast? = some c) : u.getLast? = some c := by
  simp only [endsWithL, decide_eq_true_eq] at h
  obtain ⟨t, ht⟩ := h
  rw [← ht, List.getLast?_append, hv]
  rfl

lemma endsWithL_ne_nil {u v : List Char} (h : endsWithL u v = true)
    (hv : v ≠ []) : u ≠ [] := by
  simp [endsWithL] at h
  obtain ⟨t, ht⟩ := h
  intro hu
  rw [hu] at ht
  exact hv (List.append_eq_nil.mp ht).2

lemma endsWithL_SA_getLast {u : List Char} (h : endsWithL u (strL ".SA") = true) :
    u.getLast? = some 'A' :=
  endsWithL_getLast h (by decide)

/-! ## Facts about the B3 shape -/

lemma matches4_getLast_digit {u : List Char} (h : matches4 u = true) :
    ∃ c, u.getLast? = some c ∧ c.isDigit = true := by
  match u with
  | [a, b, c, d, e] =>
    simp [matches4] at h
    exact ⟨e, by simp, by tauto⟩
  | [a, b, c, d, e, f] =>
    simp [matches4] at h
    exact ⟨f, by simp, by tauto⟩
  | [] | [_] | [_, _] | [_, _, _] | [_, _, _, _] => simp [matches4] at h
  | a :: b :: c :: d :: e :: f :: g :: t => simp [matches4] at h

lemma matches4_ne_nil {u : List Char} (h : matches4 u = true) : u ≠ [] := by
  intro hu
  rw [hu] at h
  simp [matches4] at h

lemma matches4_not_endsSA {u : List Char} (h : matches4 u = true) :
    endsWithL u (strL ".SA") = false := by
  by_contra hne
  have hsa : endsWithL u (strL ".SA") = true := by
    cases hval : endsWithL u (strL ".SA") with
    | true => rfl
    | false => exact absurd hval hne
  obtain ⟨c, hc, hdig⟩ := matches4_getLast_digit h
  have := endsWithL_SA_getLast hsa
  rw [this] at hc
  have : c = 'A' := by injection hc.symm
  rw [this] at hdig
  simp at hdig

/-! ## Re-resolution lemmas: resolving an already-normalized symbol keeps it -/

/-- A symbol with no surrounding whitespace, already uppercased and ending in
".SA" resolves to itself. -/
lemma resolve_of_endsSA {s : List Char}
    (hh : ∀ c, s.head? = some c → isWs c = false)
    (hl : ∀ c, s.getLast? = some c → isWs c = false)
    (hup : s.map upChar = s)
    (hsa : endsWithL s (strL ".SA") = true) :
    (resolveSymbol s).2.symbol = s := by
  have htrim : trim s = s := trim_eq_self hh hl
  have hut : upperTrim s = s := by
    unfold upperTrim
    rw [htrim, hup]
  have hib : upperTrim s ≠ strL "IBOV" := by
    rw [hut]
    intro he
    rw [he] at hsa
    exact absurd hsa (by decide)
  have hwin : upperTrim s ≠ strL "WIN" := by
    rw [hut]
    intro he
    rw [he] at hsa
    exact absurd hsa (by decide)
  unfold resolveSymbol
  rw [if_neg hib, if_neg hwin, if_neg (by rw [hut]; intro hcon; rw [hsa] at hcon; simp at hcon),
    if_neg (by rw [hut]; intro hcon; rw [hsa] at hcon; simp at hcon),
    if_pos (by rw [hut]; exact hsa)]
  exact hut

/-- A symbol with no surrounding whitespace, already uppercased, that fell
through every branch of the resolver resolves to itself. -/
lemma resolve_of_default {s : List Char}
    (hh : ∀ c, s.head? = some c → isWs c = false)
    (hl : ∀ c, s.getLast? = some c → isWs c = false)
    (hup : s.map upChar = s)
    (h1 : s ≠ strL "IBOV") (h2 : s ≠ strL "WIN")
    (h3 : ¬(matches4 s = true ∧ endsWithL s (strL ".SA") = false))
    (h4 : ¬(endsWithL s (strL "11") = true ∧ endsWithL s (strL ".SA") = false))
    (h5 : endsWithL s (strL ".SA") = false) :
    (resolveSymbol s).2.symbol = s := by
  have htrim : trim s = s := trim_eq_self hh hl
  have hut : upperTrim s = s := by
    unfold upperTrim
    rw [htrim, hup]
  unfold resolveSymbol
  rw [if_neg (by rw [hut]; exact h1), if_neg (by rw [hut]; exact h2),
    if_neg (by rw [hut]; exact h3),
    if_neg (by rw [hut]; exact h4), if_neg (by rw [hut]; simp [h5])]
  exact hut

lemma appendSA_getLast (u : List Char) :
    (u ++ strL ".SA").getLast? = some 'A' := by
  rw [List.getLast?_append]
  rfl

lemma appendSA_head_not {u : List Char} (hne : u ≠ [])
    (hu : ∀ c, u.head? = some c → isWs c = false) :
    ∀ c, (u ++ strL ".SA").head? = some c → isWs c = false := by
  intro c hc
  rw [List.head?_append] at hc
  cases hh : u.head? with
  | none => exact absurd (List.head?_eq_none_iff.mp hh) hne
  | some a =>
    rw [hh] at hc
    simp at hc
    rw [← hc]
    exact hu a hh

lemma map_upChar_appendSA (q : List Char) :
    (upperTrim q ++ strL ".SA").map upChar = upperTrim q ++ strL ".SA" := by
  rw [List.map_append, upperTrim_map_upChar]
  have : (strL ".SA").map upChar = strL ".SA" := by decide
  rw [this]

/-- An appended-suffix symbol built from the uppercased, trimmed input
resolves to itself. -/
lemma resolve_appendSA {q : List Char} (hne : upperTrim q ≠ []) :
    (resolveSymbol (upperTrim q ++ strL ".SA")).2.symbol
      = upperTrim q ++ strL ".SA" := by
  apply resolve_of_endsSA
  · exact appendSA_head_not hne (fun c hc => upperTrim_head_not hc)
  · intro c hc
    rw [appendSA_getLast] at hc
    injection hc with hc
    rw [← hc]
    decide
  · exact map_upChar_appendSA q
  · exact endsWithL_append_self _ _

/-- C8 helper: the first branch of the resolver taken for input `q`,
expressed through the guards of `resolveSymbol`. -/
lemma resolveSymbol_symbol_of_guards {q : List Char}
    (h1 : upperTrim q ≠ strL "IBOV") (h2 : upperTrim q ≠ strL "WIN")
    (h3 : ¬(matches4 (upperTrim q) = true ∧
        endsWithL (upperTrim q) (strL ".SA") = false))
    (h4 : ¬(endsWithL (upperTrim q) (strL "11") = true ∧
        endsWithL (upperTrim q) (strL ".SA") = false)) :
    (resolveSymbol q).2.symbol = upperTrim q := by
  unfold resolveSymbol
  rw [if_neg h1, if_neg h2, if_neg h3, if_neg h4]
  by_cases h5 : endsWithL (upperTrim q) (strL ".SA") = true
  · rw [if_pos h5]
  · rw [if_neg h5]

/-! ## C8 — resolve is idempotent on its own output -/

/-- C8: for every input, resolving the resolved symbol again leaves the
symbol unchanged; in particular symbols already carrying ".SA" are kept
as-is. -/
theorem c8_resolve_idempotent (q : List Char) :
    (resolveSymbol (resolveSymbol q).2.symbol).2.symbol
      = (resolveSymbol q).2.symbol := by
  by_cases h1 : upperTrim q = strL "IBOV"
  · have hr : (resolveSymbol q).2.symbol = strL "^BVSP" := by
      unfold resolveSymbol
      rw [if_pos h1]
    rw [hr]
    decide
  · by_cases h2 : upperTrim q = strL "WIN"
    · have hr : (resolveSymbol q).2.symbol = strL "^BVSP" := by
        unfold resolveSymbol
        rw [if_neg h1, if_pos h2]
      rw [hr]
      decide
    · by_cases h3 : matches4 (upperTrim q) = true ∧
          endsWithL (upperTrim q) (strL ".SA") = false
      · have hr : (resolveSymbol q).2.symbol = upperTrim q ++ strL ".SA" := by
          unfold resolveSymbol
          rw [if_neg h1, if_neg h2, if_pos h3]
        rw [hr]
        exact resolve_appendSA (matches4_ne_nil h3.1)
      · by_cases h4 : endsWithL (upperTrim q) (strL "11") = true ∧
            endsWithL (upperTrim q) (strL ".SA") = false
        · have hr : (resolveSymbol q).2.symbol = upperTrim q ++ strL ".SA" := by
            unfold resolveSymbol
            rw [if_neg h1, if_neg h2, if_neg h3, if_pos h4]
          rw [hr]
          exact resolve_appendSA (endsWithL_ne_nil h4.1 (by decide))
        · have hr : (resolveSymbol q).2.symbol = upperTrim q :=
            resolveSymbol_symbol_of_guards h1 h2 h3 h4
          rw [hr]
          by_cases h5 : endsWithL (upperTrim q) (strL ".SA") = true
          · exact resolve_of_endsSA (fun c hc => upperTrim_head_not hc)
              (fun c hc => upperTrim_getLast_not hc) (upperTrim_map_upChar q) h5
          · exact resolve_of_default (fun c hc => upperTrim_head_not hc)
              (fun c hc => upperTrim_getLast_not hc) (upperTrim_map_upChar q)
              h1 h2 h3 h4 (by simpa using h5)

/-! ## C6 — the B3 equity shape -/

/-- C6 as stated is false: the shape in the claim is "1–4 letters followed by
1–2 digits", but the source regex demands exactly four letters. The input
"ABC3" (three letters, one digit) matches the shape in the claim, carries no
".SA" suffix and is not an exception, yet it resolves to "ABC3" with
exchange AUTO instead of "ABC3.SA" with exchange B3. -/
theorem c6_shape_counterexample :
    ¬ (∀ q : List Char, specShape14 (upperTrim q) = true →
        endsWithL (upperTrim q) (strL ".SA") = false →
        upperTrim q ≠ strL "IBOV" → upperTrim q ≠ strL "WIN" →
        (resolveSymbol q).2.symbol = upperTrim q ++ strL ".SA" ∧
        (resolveSymbol q).2.exchange = "B3") := by
  intro h
  have hc := (h (strL "ABC3") (by decide) (by decide) (by decide) (by decide)).2
  exact absurd hc (by decide)

/-- C6 amended: for every input whose uppercased, stripped form matches
the source shape (exactly four letters followed by one or two digits),
resolve appends ".SA" to the uppercased input and tags the exchange B3;
this holds case-insensitively. -/
theorem c6_shape_amended (q : List Char)
    (hm : matches4 (upperTrim q) = true) :
    (resolveSymbol q).2.symbol = upperTrim q ++ strL ".SA" ∧
    (resolveSymbol q).2.exchange = "B3" := by
  have hsa := matches4_not_endsSA hm
  have h1 : upperTrim q ≠ strL "IBOV" := by
    intro he
    rw [he] at hm
    exact absurd hm (by decide)
  have h2 : upperTrim q ≠ strL "WIN" := by
    intro he
    rw [he] at hm
    exact absurd hm (by decide)
  unfold resolveSymbol
  rw [if_neg h1, if_neg h2, if_pos ⟨hm, hsa⟩]
  exact ⟨rfl, rfl⟩

/-- Witness for C6 amended: "PETR4" and "petr4" both resolve to
"PETR4.SA" on exchange B3. -/
theorem c6_shape_amended_witness :
    (resolveSymbol (strL "PETR4")).2.symbol = strL "PETR4.SA" ∧
    (resolveSymbol (strL "petr4")).2.symbol = strL "PETR4.SA" ∧
    (resolveSymbol (strL "petr4")).2.exchange = "B3" := by
  have h1 := c6_shape_amended (strL "PETR4") (by decide)
  have h2 := c6_shape_amended (strL "petr4") (by decide)
  refine ⟨h1.1.trans (by decide), h2.1.trans (by decide), h2.2⟩

/-! ## Orchestrator lemmas -/

lemma validatePrice_price (q : QuoteInternal) :
    (validatePrice q).price = q.price := by
  unfold validatePrice
  split_ifs <;> rfl

lemma validateCurrency_source (q : QuoteInternal) :
    (validateCurrency q).price.source = q.price.source := by
  unfold validateCurrency
  split_ifs <;> rfl

lemma validateCurrency_confidence (q : QuoteInternal) :
    (validateCurrency q).status.confidence = q.status.confidence := by
  unfold validateCurrency
  split_ifs <;> rfl

lemma validateCurrency_notes_mem (q : QuoteInternal) {x : String}
    (h : x ∈ q.status.notes) : x ∈ (validateCurrency q).status.notes := by
  unfold validateCurrency
  split_ifs
  · simp [h]
  · exact h

lemma validate_source (q : QuoteInternal) :
    (validate q).price.source = q.price.source := by
  unfold validate
  rw [validateCurrency_source, validatePrice_price]

lemma tryProvider_source {env : Env} {sym p : String} {w : QuoteInternal}
    (h : tryProvider env sym p = some w) : w.price.source = p := by
  unfold tryProvider at h
  by_cases h1 : p = "brapi"
  · rw [if_pos h1] at h
    obtain ⟨d, _, hw⟩ := Option.map_eq_some'.mp h
    rw [← hw, h1]
    rfl
  · rw [if_neg h1] at h
    by_cases h2 : p = "yahoo"
    · rw [if_pos h2] at h
      obtain ⟨d, _, hw⟩ := Option.map_eq_some'.mp h
      rw [← hw, h2]
      rfl
    · rw [if_neg h2] at h
      by_cases h3 : p = "stooq"
      · rw [if_pos h3] at h
        obtain ⟨d, _, hw⟩ := Option.map_eq_some'.mp h
        rw [← hw, h3]
        rfl
      · rw [if_neg h3] at h
        exact absurd h (by simp)

lemma runProviders_append (env : Env) (sym : String) (pre : List String)
    (p : String) (suf : List String) (w : QuoteInternal)
    (hpre : ∀ q ∈ pre, tryProvider env sym q = none)
    (hw : tryProvider env sym p = some w) :
    runProviders env sym (pre ++ p :: suf) = some (pre, p, validate w) := by
  induction pre with
  | nil =>
    simp only [List.nil_append, runProviders, hw]
  | cons a t ih =>
    have ha : tryProvider env sym a = none := hpre a (by simp)
    have ht : ∀ q ∈ t, tryProvider env sym q = none :=
      fun q hq => hpre q (by simp [hq])
    simp only [List.cons_append, runProviders, ha]
    show (match runProviders env sym (t ++ p :: suf) with
      | some (pre, q, v) => some (a :: pre, q, v)
      | none => none) = some (a :: t, p, validate w)
    rw [ih ht]

lemma runProviders_none (env : Env) (sym : String) (order : List String)
    (h : ∀ p ∈ order, tryProvider env sym p = none) :
    runProviders env sym order = none := by
  induction order with
  | nil => rfl
  | cons a t ih =>
    have ha : tryProvider env sym a = none := h a (by simp)
    have ht : ∀ p ∈ t, tryProvider env sym p = none :=
      fun p hp => h p (by simp [hp])
    simp only [runProviders, ha, ih ht]

lemma runProviders_attempted_sub (env : Env) (sym : String) :
    ∀ (order pre : List String) (p : String) (v : QuoteInternal),
      runProviders env sym order = some (pre, p, v) →
      ∀ x ∈ pre ++ [p], x ∈ order := by
  intro order
  induction order with
  | nil => intro pre p v h; simp [runProviders] at h
  | cons a t ih =>
    intro pre p v h x hx
    unfold runProviders at h
    cases ha : tryProvider env sym a with
    | some parsed =>
      rw [ha] at h
      simp only [Option.some.injEq, Prod.mk.injEq] at h
      obtain ⟨h1, h2, _⟩ := h
      subst h1
      subst h2
      simp at hx
      simp [hx]
    | none =>
      rw [ha] at h
      cases hrec : runProviders env sym t with
      | some pqv =>
        obtain ⟨pre', q', v'⟩ := pqv
        rw [hrec] at h
        simp only [Option.some.injEq, Prod.mk.injEq] at h
        obtain ⟨h1, h2, _⟩ := h
        subst h1
        subst h2
        simp at hx
        rcases hx with hx | hx | hx
        · simp [hx]
        · have := ih pre' q' v' hrec x (by simp [hx])
          simp [this]
        · have := ih pre' q' v' hrec x (by simp [hx])
          simp [this]
      | none => rw [hrec] at h; exact absurd h (by simp)

lemma mem_baseProviders_of_mem_order {tok : String} {prefer : Option String}
    {x : String} (h : x ∈ providersOrder tok prefer) : x ∈ baseProviders tok := by
  unfold providersOrder at h
  cases prefer with
  | none => exact h
  | some p =>
    by_cases hp : p ∈ baseProviders tok
    · simp only [if_pos hp] at h
      rcases List.mem_cons.mp h with h | h
      · rw [h]; exact hp
      · exact List.mem_of_mem_erase h
    · simpa [if_neg hp] using h

lemma brapi_not_mem_base {tok : String} (h : tok = "") :
    "brapi" ∉ baseProviders tok := by
  subst h
  simp [baseProviders]

lemma providersOrder_ne_nil (tok : String) (prefer : Option String) :
    providersOrder tok prefer ≠ [] := by
  have hbase : baseProviders tok ≠ [] := by
    unfold baseProviders
    by_cases h : tok ≠ "" <;> simp [h]
  unfold providersOrder
  cases prefer with
  | none => exact hbase
  | some p =>
    by_cases hp : p ∈ baseProviders tok <;> simp [hp, hbase]

lemma cacheLookup_insert_self (c : CacheT) (k : String) (t : Nat)
    (v : QuoteInternal) (now ttl : Nat) :
    cacheLookup (cacheInsert c k t v) k now ttl
      = if now < t + ttl then some v else none := by
  simp [cacheLookup, cacheInsert, List.find?]

lemma cacheLookup_insert_ne (c : CacheT) {k1 k2 : String} (t : Nat)
    (v : QuoteInternal) (now ttl : Nat) (h : k1 ≠ k2) :
    cacheLookup (cacheInsert c k1 t v) k2 now ttl = cacheLookup c k2 now ttl := by
  unfold cacheLookup cacheInsert
  have hb : (k1 == k2) = false := by simp [h]
  simp [List.find?, hb]

lemma cacheLookup_none_mono {c : CacheT} {k : String} {now ttl t2 : Nat}
    (h : cacheLookup c k now ttl = none) (hle : now ≤ t2) :
    cacheLookup c k t2 ttl = none := by
  unfold cacheLookup at h ⊢
  cases hf : c.find? (fun e => e.1 == k) with
  | none => rfl
  | some e =>
    obtain ⟨k', t', v'⟩ := e
    rw [hf] at h
    change (if now < t' + ttl then some v' else none) = none at h
    change (if t2 < t' + ttl then some v' else none) = none
    by_cases ht : now < t' + ttl
    · rw [if_pos ht] at h
      exact absurd h (by simp)
    · rw [if_neg (show ¬ t2 < t' + ttl by omega)]

lemma cacheKey_inj {s : String} {p1 p2 : Option String}
    (h : preferOr p1 ≠ preferOr p2) : cacheKey s p1 ≠ cacheKey s p2 := by
  intro he
  apply h
  unfold cacheKey at he
  have hd := congrArg String.data he
  have hd' : (s ++ ":").data ++ (preferOr p1).data
      = (s ++ ":").data ++ (preferOr p2).data := by
    simpa [String.append_assoc] using hd
  have := List.append_cancel_left hd'
  exact String.ext this

lemma getQuote_hit (env : Env) (cache : CacheT) (now ttl : Nat) (resolved : RSym)
    (prefer : Option String) (w : QuoteInternal)
    (h : cacheLookup cache (cacheKey resolved.symbol prefer) now ttl = some w) :
    getQuote env cache now ttl resolved prefer = ⟨Except.ok w, cache, []⟩ := by
  unfold getQuote
  rw [h]

lemma getQuote_miss (env : Env) (cache : CacheT) (now ttl : Nat) (resolved : RSym)
    (prefer : Option String)
    (h : cacheLookup cache (cacheKey resolved.symbol prefer) now ttl = none) :
    getQuote env cache now ttl resolved prefer =
      match runProviders env resolved.symbol (providersOrder env.brapiToken prefer) with
      | some (pre, p, v) =>
        ⟨Except.ok v, cacheInsert cache (cacheKey resolved.symbol prefer) now v,
          pre ++ [p]⟩
      | none =>
        ⟨Except.error ("Todas as fontes falharam para " ++ resolved.symbol ++ ". "),
          cache, providersOrder env.brapiToken prefer⟩ := by
  unfold getQuote
  rw [h]

/-! ## C1 — provider priority, token gating, prefer, and fallback source -/

/-- C1: on a cache miss, (i) with no BRAPI token configured, brapi is never
attempted; (ii) a `prefer` naming an available provider is moved to the
front of the fixed priority order; (iii) if every provider placed before
`p` in the order yields no data and `p` succeeds, the call returns the
validated parse of `p` and its `price.source` is `p` (so a lower-priority
validated parse determines id and confidence when the higher-priority providers had no data),
with exactly the providers up to `p` attempted. -/
theorem c1_provider_priority (env : Env) (cache : CacheT) (now ttl : Nat)
    (resolved : RSym) (prefer : Option String)
    (hmiss : cacheLookup cache (cacheKey resolved.symbol prefer) now ttl = none) :
    (env.brapiToken = "" →
      "brapi" ∉ (getQuote env cache now ttl resolved prefer).attempted) ∧
    (∀ p, prefer = some p → p ∈ baseProviders env.brapiToken →
      providersOrder env.brapiToken prefer
        = p :: (baseProviders env.brapiToken).erase p) ∧
    (∀ pre p suf, providersOrder env.brapiToken prefer = pre ++ p :: suf →
      (∀ q ∈ pre, tryProvider env resolved.symbol q = none) →
      ∀ w, tryProvider env resolved.symbol p = some w →
        (getQuote env cache now ttl resolved prefer).result
            = Except.ok (validate w) ∧
        (validate w).price.source = p ∧
        (getQuote env cache now ttl resolved prefer).attempted = pre ++ [p]) := by
  refine ⟨?_, ?_, ?_⟩
  · intro htok hmem
    rw [getQuote_miss env cache now ttl resolved prefer hmiss] at hmem
    have hb := brapi_not_mem_base htok
    cases hrp : runProviders env resolved.symbol
        (providersOrder env.brapiToken prefer) with
    | some pqv =>
      obtain ⟨pre, p, v⟩ := pqv
      rw [hrp] at hmem
      have := runProviders_attempted_sub env resolved.symbol _ pre p v hrp
        "brapi" hmem
      exact hb (mem_baseProviders_of_mem_order this)
    | none =>
      rw [hrp] at hmem
      exact hb (mem_baseProviders_of_mem_order hmem)
  · intro p hp hpmem
    unfold providersOrder
    rw [hp]
    simp only [if_pos hpmem]
  · intro pre p suf horder hpre w hw
    have hrun := runProviders_append env resolved.symbol pre p suf w hpre hw
    rw [getQuote_miss env cache now ttl resolved prefer hmiss, horder, hrun]
    exact ⟨rfl, (validate_source w).trans (tryProvider_source hw), rfl⟩

/-- Witness for C1: BRAPI configured but returning no data, Yahoo
succeeding; the call attempts brapi then yahoo, and returns the validated
Yahoo parse with source "yahoo". -/
theorem c1_provider_priority_witness :
    (getQuote ⟨"tok", "t0", none,
        some ⟨some (.fin 100), none, none, some "USD", some (.fin 2)⟩, none⟩
        [] 0 30 ⟨"AAPL", "AUTO", "AAPL"⟩ none).result
      = Except.ok (validate (parseYahoo "t0" "AAPL"
          ⟨some (.fin 100), none, none, some "USD", some (.fin 2)⟩)) ∧
    (validate (parseYahoo "t0" "AAPL"
        ⟨some (.fin 100), none, none, some "USD", some (.fin 2)⟩)).price.source
      = "yahoo" ∧
    (getQuote ⟨"tok", "t0", none,
        some ⟨some (.fin 100), none, none, some "USD", some (.fin 2)⟩, none⟩
        [] 0 30 ⟨"AAPL", "AUTO", "AAPL"⟩ none).attempted = ["brapi", "yahoo"] := by
  have h := (c1_provider_priority
    ⟨"tok", "t0", none,
      some ⟨some (.fin 100), none, none, some "USD", some (.fin 2)⟩, none⟩
    [] 0 30 ⟨"AAPL", "AUTO", "AAPL"⟩ none rfl).2.2
    ["brapi"] "yahoo" ["stooq"] (by decide)
    (by
      intro q hq
      simp at hq
      subst hq
      rfl)
    (parseYahoo "t0" "AAPL" ⟨some (.fin 100), none, none, some "USD", some (.fin 2)⟩)
    rfl
  exact ⟨h.1, h.2.1, h.2.2⟩

/-! ## C2 — the TTL cache -/

/-- C2: an unexpired hit for the key `(resolved.symbol, prefer or "auto")`
returns the cached value immediately with no provider contacted; and after
a call that misses and succeeds, a second call with identical arguments
within the TTL window returns the identical result while attempting no
provider. -/
theorem c2_cache_ttl (env : Env) (cache : CacheT) (t1 t2 ttl : Nat)
    (resolved : RSym) (prefer : Option String) (v : QuoteInternal) :
    (∀ w, cacheLookup cache (cacheKey resolved.symbol prefer) t1 ttl = some w →
      getQuote env cache t1 ttl resolved prefer = ⟨Except.ok w, cache, []⟩) ∧
    (cacheLookup cache (cacheKey resolved.symbol prefer) t1 ttl = none →
      (getQuote env cache t1 ttl resolved prefer).result = Except.ok v →
      t2 < t1 + ttl →
      (getQuote env (getQuote env cache t1 ttl resolved prefer).cache
          t2 ttl resolved prefer).result = Except.ok v ∧
      (getQuote env (getQuote env cache t1 ttl resolved prefer).cache
          t2 ttl resolved prefer).attempted = []) := by
  constructor
  · intro w hw
    exact getQuote_hit env cache t1 ttl resolved prefer w hw
  · intro hmiss hok ht2
    rw [getQuote_miss env cache t1 ttl resolved prefer hmiss] at hok ⊢
    cases hrp : runProviders env resolved.symbol
        (providersOrder env.brapiToken prefer) with
    | some pqv =>
      obtain ⟨pre, p, w⟩ := pqv
      simp only [hrp] at hok ⊢
      have hv : w = v := by
        injection hok with hok
      subst hv
      have hl : cacheLookup
          (cacheInsert cache (cacheKey resolved.symbol prefer) t1 w)
          (cacheKey resolved.symbol prefer) t2 ttl = some w := by
        rw [cacheLookup_insert_self, if_pos ht2]
      rw [getQuote_hit env _ t2 ttl resolved prefer w hl]
      exact ⟨rfl, rfl⟩
    | none =>
      rw [hrp] at hok
      exact absurd hok (by simp)

/-- Witness for C2: a concrete first call misses, succeeds via Yahoo, and
the second call one second later returns the identical quote with no
provider attempted. -/
theorem c2_cache_ttl_witness :
    cacheLookup [] (cacheKey "PETR4.SA" none) 0 30 = none ∧
    (getQuote ⟨"", "t0", none,
        some ⟨some (.fin 30), none, none, some "BRL", some (.fin 1)⟩, none⟩
        [] 0 30 ⟨"PETR4.SA", "B3", "PETR4"⟩ none).result
      = Except.ok (validate (parseYahoo "t0" "PETR4.SA"
          ⟨some (.fin 30), none, none, some "BRL", some (.fin 1)⟩)) ∧
    (getQuote ⟨"", "t0", none,
        some ⟨some (.fin 30), none, none, some "BRL", some (.fin 1)⟩, none⟩
        ((getQuote ⟨"", "t0", none,
            some ⟨some (.fin 30), none, none, some "BRL", some (.fin 1)⟩, none⟩
            [] 0 30 ⟨"PETR4.SA", "B3", "PETR4"⟩ none).cache)
        1 30 ⟨"PETR4.SA", "B3", "PETR4"⟩ none).result
      = Except.ok (validate (parseYahoo "t0" "PETR4.SA"
          ⟨some (.fin 30), none, none, some "BRL", some (.fin 1)⟩)) ∧
    (getQuote ⟨"", "t0", none,
        some ⟨some (.fin 30), none, none, some "BRL", some (.fin 1)⟩, none⟩
        ((getQuote ⟨"", "t0", none,
            some ⟨some (.fin 30), none, none, some "BRL", some (.fin 1)⟩, none⟩
            [] 0 30 ⟨"PETR4.SA", "B3", "PETR4"⟩ none).cache)
        1 30 ⟨"PETR4.SA", "B3", "PETR4"⟩ none).attempted = [] := by
  have h := (c2_cache_ttl
    ⟨"", "t0", none,
      some ⟨some (.fin 30), none, none, some "BRL", some (.fin 1)⟩, none⟩
    [] 0 1 30 ⟨"PETR4.SA", "B3", "PETR4"⟩ none
    (validate (parseYahoo "t0" "PETR4.SA"
      ⟨some (.fin 30), none, none, some "BRL", some (.fin 1)⟩))).2
    rfl rfl (by omega)
  exact ⟨rfl, rfl, h.1, h.2⟩

/-! ## C3 — exhaustion policy -/

/-- C3: on a cache miss where every provider in the chosen order yields no
data, the call fails with the single aggregated error message (the fixed
"all sources failed" text naming only the symbol — the policy the source
chose instead of synthesizing an empty quote), the cache is unchanged, and
any later call behaves the same way, so the policy holds across repeated
calls. -/
theorem c3_exhaustion_policy (env : Env) (cache : CacheT) (now ttl : Nat)
    (resolved : RSym) (prefer : Option String)
    (hmiss : cacheLookup cache (cacheKey resolved.symbol prefer) now ttl = none)
    (hall : ∀ p ∈ providersOrder env.brapiToken prefer,
      tryProvider env resolved.symbol p = none) :
    (getQuote env cache now ttl resolved prefer).result
      = Except.error ("Todas as fontes falharam para " ++ resolved.symbol ++ ". ") ∧
    (getQuote env cache now ttl resolved prefer).cache = cache ∧
    (∀ t2, now ≤ t2 →
      (getQuote env (getQuote env cache now ttl resolved prefer).cache
          t2 ttl resolved prefer).result
        = Except.error ("Todas as fontes falharam para " ++ resolved.symbol ++ ". ")) := by
  have hrun := runProviders_none env resolved.symbol _ hall
  rw [getQuote_miss env cache now ttl resolved prefer hmiss, hrun]
  refine ⟨rfl, rfl, ?_⟩
  intro t2 hle
  have hmiss2 : cacheLookup cache (cacheKey resolved.symbol prefer) t2 ttl = none :=
    cacheLookup_none_mono hmiss hle
  rw [getQuote_miss env cache t2 ttl resolved prefer hmiss2, hrun]

/-- Witness for C3: no token, Yahoo and Stooq both without data — the call
errors with the aggregated message, and so does a repeat call. -/
theorem c3_exhaustion_policy_witness :
    (getQuote ⟨"", "t0", none, none, none⟩ [] 0 30
        ⟨"VALE3.SA", "B3", "VALE3"⟩ none).result
      = Except.error "Todas as fontes falharam para VALE3.SA. " ∧
    (getQuote ⟨"", "t0", none, none, none⟩
        ((getQuote ⟨"", "t0", none, none, none⟩ [] 0 30
            ⟨"VALE3.SA", "B3", "VALE3"⟩ none).cache) 5 30
        ⟨"VALE3.SA", "B3", "VALE3"⟩ none).result
      = Except.error "Todas as fontes falharam para VALE3.SA. " := by
  have h := c3_exhaustion_policy ⟨"", "t0", none, none, none⟩ [] 0 30
    ⟨"VALE3.SA", "B3", "VALE3"⟩ none rfl
    (by
      intro p hp
      simp [providersOrder, baseProviders] at hp
      rcases hp with hp | hp <;> subst hp <;> rfl)
  exact ⟨h.1, h.2.2 5 (by omega)⟩

/-! ## C9 — failures are never cached -/

/-- C9: when a cache miss exhausts all providers, the call leaves the cache
exactly as it was, and a later call with the same arguments re-attempts the
whole (non-empty) provider order. -/
theorem c9_no_negative_caching (env : Env) (cache : CacheT) (now ttl : Nat)
    (resolved : RSym) (prefer : Option String)
    (hmiss : cacheLookup cache (cacheKey resolved.symbol prefer) now ttl = none)
    (hall : ∀ p ∈ providersOrder env.brapiToken prefer,
      tryProvider env resolved.symbol p = none) :
    (getQuote env cache now ttl resolved prefer).cache = cache ∧
    (∀ t2, now ≤ t2 →
      (getQuote env (getQuote env cache now ttl resolved prefer).cache
          t2 ttl resolved prefer).attempted
        = providersOrder env.brapiToken prefer) ∧
    providersOrder env.brapiToken prefer ≠ [] := by
  have hrun := runProviders_none env resolved.symbol _ hall
  rw [getQuote_miss env cache now ttl resolved prefer hmiss, hrun]
  refine ⟨rfl, ?_, providersOrder_ne_nil env.brapiToken prefer⟩
  intro t2 hle
  have hmiss2 : cacheLookup cache (cacheKey resolved.symbol prefer) t2 ttl = none :=
    cacheLookup_none_mono hmiss hle
  rw [getQuote_miss env cache t2 ttl resolved prefer hmiss2, hrun]

/-- Witness for C9: after a failed call the cache is still empty and the
repeat call attempts yahoo and stooq again. -/
theorem c9_no_negative_caching_witness :
    (getQuote ⟨"", "t0", none, none, none⟩ [] 0 30
        ⟨"ITUB4.SA", "B3", "ITUB4"⟩ none).cache = [] ∧
    (getQuote ⟨"", "t0", none, none, none⟩
        ((getQuote ⟨"", "t0", none, none, none⟩ [] 0 30
            ⟨"ITUB4.SA", "B3", "ITUB4"⟩ none).cache) 3 30
        ⟨"ITUB4.SA", "B3", "ITUB4"⟩ none).attempted = ["yahoo", "stooq"] := by
  have h := c9_no_negative_caching ⟨"", "t0", none, none, none⟩ [] 0 30
    ⟨"ITUB4.SA", "B3", "ITUB4"⟩ none rfl
    (by
      intro p hp
      simp [providersOrder, baseProviders] at hp
      rcases hp with hp | hp <;> subst hp <;> rfl)
  exact ⟨h.1, (h.2.1 3 (by omega)).trans (by rfl)⟩

/-! ## C10 — unrecognized prefer values -/

/-- C10 as stated is false in one corner: the empty string and "auto" are
two different unrecognized preference values, yet `prefer or "auto"` maps
both to the same cache key, so the second query is answered from the first
cache entry written by the first query and contacts no provider. -/
theorem c10_prefer_counterexample :
    ("" : String) ≠ "auto" ∧
    ("" : String) ∉ baseProviders "" ∧ ("auto" : String) ∉ baseProviders "" ∧
    cacheKey "PETR4.SA" (some "") = cacheKey "PETR4.SA" (some "auto") ∧
    (getQuote ⟨"", "t0", none,
        some ⟨some (.fin 30), none, none, some "BRL", some (.fin 1)⟩, none⟩
        ((getQuote ⟨"", "t0", none,
            some ⟨some (.fin 30), none, none, some "BRL", some (.fin 1)⟩, none⟩
            [] 0 30 ⟨"PETR4.SA", "B3", "PETR4"⟩ (some "")).cache)
        1 30 ⟨"PETR4.SA", "B3", "PETR4"⟩ (some "auto")).attempted = [] ∧
    (getQuote ⟨"", "t0", none,
        some ⟨some (.fin 30), none, none, some "BRL", some (.fin 1)⟩, none⟩
        ((getQuote ⟨"", "t0", none,
            some ⟨some (.fin 30), none, none, some "BRL", some (.fin 1)⟩, none⟩
            [] 0 30 ⟨"PETR4.SA", "B3", "PETR4"⟩ (some "")).cache)
        1 30 ⟨"PETR4.SA", "B3", "PETR4"⟩ (some "auto")).result
      = (getQuote ⟨"", "t0", none,
          some ⟨some (.fin 30), none, none, some "BRL", some (.fin 1)⟩, none⟩
          [] 0 30 ⟨"PETR4.SA", "B3", "PETR4"⟩ (some "")).result := by
  exact ⟨by decide, by decide, by decide, rfl, rfl, rfl⟩

/-- C10 amended: an unrecognized `prefer` (any string not in the available
provider list, including "brapi" without a token) leaves the priority
order unchanged and the call behaves exactly like the default call; the
preference is part of the cache key, so preference values mapping to
different keys are cached under separate, independent entries — with the
one exception that the empty string is normalized to "auto". -/
theorem c10_unknown_prefer_amended :
    (∀ tok p, p ∉ baseProviders tok →
      providersOrder tok (some p) = baseProviders tok) ∧
    (∀ (env : Env) (cache : CacheT) (now ttl : Nat) (resolved : RSym) p,
      p ∉ baseProviders env.brapiToken →
      cacheLookup cache (cacheKey resolved.symbol (some p)) now ttl = none →
      cacheLookup cache (cacheKey resolved.symbol none) now ttl = none →
      (getQuote env cache now ttl resolved (some p)).result
        = (getQuote env cache now ttl resolved none).result ∧
      (getQuote env cache now ttl resolved (some p)).attempted
        = (getQuote env cache now ttl resolved none).attempted) ∧
    (∀ (s : String) (p1 p2 : Option String), preferOr p1 ≠ preferOr p2 →
      cacheKey s p1 ≠ cacheKey s p2) ∧
    (∀ (c : CacheT) (k1 k2 : String) (t : Nat) (v : QuoteInternal) (now ttl : Nat),
      k1 ≠ k2 →
      cacheLookup (cacheInsert c k1 t v) k2 now ttl = cacheLookup c k2 now ttl) := by
  have horder : ∀ tok p, p ∉ baseProviders tok →
      providersOrder tok (some p) = baseProviders tok := by
    intro tok p hp
    unfold providersOrder
    simp only [if_neg hp]
  refine ⟨horder, ?_, ?_, ?_⟩
  · intro env cache now ttl resolved p hp hm1 hm2
    rw [getQuote_miss env cache now ttl resolved (some p) hm1,
      getQuote_miss env cache now ttl resolved none hm2]
    rw [show providersOrder env.brapiToken (some p)
        = providersOrder env.brapiToken none from horder env.brapiToken p hp]
    cases hrp : runProviders env resolved.symbol
        (providersOrder env.brapiToken none) with
    | some pqv =>
      obtain ⟨pre, q, v⟩ := pqv
      exact ⟨rfl, rfl⟩
    | none => exact ⟨rfl, rfl⟩
  · intro s p1 p2 h
    exact cacheKey_inj h
  · intro c k1 k2 t v now ttl h
    exact cacheLookup_insert_ne c t v now ttl h

/-- Witness for C10 amended: "foo" is not an available provider, the order
is unchanged and a "foo" call equals the default call; "foo" and "bar" get
distinct keys, and a "bar" entry does not shadow a "foo" lookup. -/
theorem c10_unknown_prefer_amended_witness :
    providersOrder "" (some "foo") = baseProviders "" ∧
    (getQuote ⟨"", "t0", none,
        some ⟨some (.fin 30), none, none, some "BRL", some (.fin 1)⟩, none⟩
        [] 0 30 ⟨"PETR4.SA", "B3", "PETR4"⟩ (some "foo")).result
      = (getQuote ⟨"", "t0", none,
          some ⟨some (.fin 30), none, none, some "BRL", some (.fin 1)⟩, none⟩
          [] 0 30 ⟨"PETR4.SA", "B3", "PETR4"⟩ none).result ∧
    cacheKey "PETR4.SA" (some "foo") ≠ cacheKey "PETR4.SA" (some "bar") ∧
    cacheLookup
        (cacheInsert [] (cacheKey "PETR4.SA" (some "bar")) 0
          (validate (parseYahoo "t0" "PETR4.SA"
            ⟨some (.fin 30), none, none, some "BRL", some (.fin 1)⟩)))
        (cacheKey "PETR4.SA" (some "foo")) 0 30
      = cacheLookup [] (cacheKey "PETR4.SA" (some "foo")) 0 30 := by
  refine ⟨c10_unknown_prefer_amended.1 "" "foo" (by decide),
    (c10_unknown_prefer_amended.2.1
      ⟨"", "t0", none,
        some ⟨some (.fin 30), none, none, some "BRL", some (.fin 1)⟩, none⟩
      [] 0 30 ⟨"PETR4.SA", "B3", "PETR4"⟩ "foo" (by decide) rfl rfl).1,
    c10_unknown_prefer_amended.2.2.1 "PETR4.SA" (some "foo") (some "bar")
      (by decide),
    c10_unknown_prefer_amended.2.2.2 []
      (cacheKey "PETR4.SA" (some "bar")) (cacheKey "PETR4.SA" (some "foo")) 0
      (validate (parseYahoo "t0" "PETR4.SA"
        ⟨some (.fin 30), none, none, some "BRL", some (.fin 1)⟩)) 0 30
      (by decide)⟩

/-! ## C4 — price validation -/

/-- C4 as stated is false: the claim covers "non-positive or non-finite
(NaN or infinite)", but `_validate` tests only `math.isnan` and `<= 0`, so
a positive-infinite price passes validation untouched: confidence stays
"high" and no note is appended. -/
theorem c4_validation_counterexample :
    ¬ (∀ (q : QuoteInternal) (f : PyFloat), q.price.last = some f →
        specNonposOrNonfinite f = true →
        (validate q).status.confidence = "low") := by
  intro h
  have := h ⟨⟨some .inf, none, some "USD", none, "yahoo"⟩,
    ⟨none, none⟩, ⟨none⟩, ⟨"high", []⟩⟩ .inf rfl (by decide)
  exact absurd this (by decide)

/-- C4 amended: whenever the chosen result's `price.last` is present and
NaN or `<= 0` (so non-positive, including negative infinity — but not
positive infinity), validation forces confidence to "low" and appends the
invalid-price note, regardless of which provider produced the quote. -/
theorem c4_validation_amended (q : QuoteInternal) (f : PyFloat)
    (hf : q.price.last = some f)
    (hbad : (f.isnanB || f.leZeroB) = true) :
    (validate q).status.confidence = "low" ∧
    "Preço inválido ou ausente" ∈ (validate q).status.notes := by
  have hcond : q.price.last.isSome ∧
      ((q.price.last.map PyFloat.isnanB).getD false = true ∨
       (q.price.last.map PyFloat.leZeroB).getD false = true) := by
    rw [hf]
    refine ⟨rfl, ?_⟩
    rcases Bool.or_eq_true_iff.mp hbad with hb | hb
    · exact Or.inl (by simpa using hb)
    · exact Or.inr (by simpa using hb)
  have hp : validatePrice q
      = { q with status := { confidence := "low",
                             notes := q.status.notes ++
                               ["Preço inválido ou ausente"] } } := by
    unfold validatePrice
    rw [if_pos hcond]
  unfold validate
  rw [hp]
  constructor
  · rw [validateCurrency_confidence]
  · exact validateCurrency_notes_mem _ (by simp)

/-- Witness for C4 amended: a yahoo quote with a negative price gets
confidence "low" and the invalid-price note. -/
theorem c4_validation_amended_witness :
    (validate ⟨⟨some (.fin (-5)), none, some "USD", none, "yahoo"⟩,
        ⟨none, none⟩, ⟨none⟩, ⟨"high", []⟩⟩).status.confidence = "low" ∧
    "Preço inválido ou ausente" ∈
      (validate ⟨⟨some (.fin (-5)), none, some "USD", none, "yahoo"⟩,
        ⟨none, none⟩, ⟨none⟩, ⟨"high", []⟩⟩).status.notes :=
  c4_validation_amended _ (.fin (-5)) rfl (by decide)

/-! ## C5 — currency inference -/

/-- C5 as stated is false: `_validate` calls `_brl_if_b3("X.SA")` with the
literal "X.SA", so an absent currency is always defaulted to "BRL", even
when the resolved exchange is not B3 (where the claim demands "USD"). -/
theorem c5_currency_counterexample :
    ¬ (∀ (exchange : String) (q : QuoteInternal),
        currencyFalsy q.price.currency = true →
        (validate q).price.currency
          = some (if exchange = "B3" then "BRL" else "USD")) := by
  intro h
  have := h "AUTO" ⟨⟨some (.fin 10), none, none, none, "yahoo"⟩,
    ⟨none, none⟩, ⟨none⟩, ⟨"high", []⟩⟩ (by decide)
  exact absurd this (by decide)

/-- C5 amended: whenever the chosen result's `price.currency` is absent (or
empty), validation sets it to "BRL" unconditionally — the exchange-based
default `_brl_if_b3` is invoked on the fixed literal "X.SA", so "USD" is
never inferred — and appends the inference note. -/
theorem c5_currency_amended (q : QuoteInternal)
    (hc : currencyFalsy q.price.currency = true) :
    (validate q).price.currency = some "BRL" ∧
    "Moeda inferida automaticamente" ∈ (validate q).status.notes := by
  have hc1 : currencyFalsy (validatePrice q).price.currency = true := by
    rw [validatePrice_price]
    exact hc
  unfold validate validateCurrency
  rw [if_pos hc1]
  constructor
  · show some (brlIfB3 "X.SA") = some "BRL"
    decide
  · simp

/-- Witness for C5 amended: a currency-less stooq-shaped quote for a US
symbol still gets "BRL" and the inference note. -/
theorem c5_currency_amended_witness :
    (validate ⟨⟨some (.fin 10), none, none, none, "stooq"⟩,
        ⟨none, none⟩, ⟨none⟩, ⟨"medium", []⟩⟩).price.currency = some "BRL" ∧
    "Moeda inferida automaticamente" ∈
      (validate ⟨⟨some (.fin 10), none, none, none, "stooq"⟩,
        ⟨none, none⟩, ⟨none⟩, ⟨"medium", []⟩⟩).status.notes :=
  c5_currency_amended _ (by decide)

/-! ## C7 — the Yahoo daily change computation -/

/-- C7 as stated is false in its "exactly when" direction: when `last` is
absent but the two-daily-candles fallback has data, the code still
computes a change percentage (from the two candle closes), so a computed
`change_pct` does not imply that `last` was available. -/
theorem c7_change_pct_counterexample :
    ¬ (∀ (infoPrev : Option ℚ) (hist2 : Option (ℚ × ℚ)) (last : Option ℚ),
        (yfDailyChangePct infoPrev hist2 last).isSome = true →
        last.isSome = true) := by
  intro h
  have := h none (some (95, 100)) none (by decide)
  simp at this

/-- C7 amended: with `last` present and a positive `info.previousClose`,
`change_pct` is exactly `(last / previous_close - 1) * 100`; with `last`
absent but two daily candles available and a positive previous candle
close, it is computed from the candle closes instead; for last=100 and
previous-close=95 the value is 100/19 ≈ 5.263; and `parse_yahoo` appends
the caveat note with confidence "medium" exactly when `change_pct` is
absent, reporting "high" otherwise. -/
theorem c7_change_pct_amended :
    (∀ (l prev : ℚ) (hist2 : Option (ℚ × ℚ)), 0 < prev →
      yfDailyChangePct (some prev) hist2 (some l)
        = some ((l / prev - 1) * 100)) ∧
    (∀ (prevC lastC : ℚ), 0 < prevC →
      yfDailyChangePct none (some (prevC, lastC)) none
        = some ((lastC / prevC - 1) * 100)) ∧
    (yfDailyChangePct (some 95) none (some 100) = some (100 / 19) ∧
      |(100 : ℚ) / 19 - 5.263| < 1 / 1000) ∧
    (∀ (nowIso sym : String) (data : YahooRaw), data.change_pct = none →
      (parseYahoo nowIso sym data).status.notes
        = ["Exibindo último preço/fechamento (var. diária indisponível)"] ∧
      (parseYahoo nowIso sym data).status.confidence = "medium") ∧
    (∀ (nowIso sym : String) (data : YahooRaw) (cp : PyFloat),
      data.change_pct = some cp →
      (parseYahoo nowIso sym data).status.notes = [] ∧
      (parseYahoo nowIso sym data).status.confidence = "high") := by
  refine ⟨?_, ?_, ⟨?_, ?_⟩, ?_, ?_⟩
  · intro l prev hist2 hprev
    show (if prev ≠ 0 ∧ 0 < prev then some ((l / prev - 1) * 100)
      else match hist2 with
        | some (prevC, _) =>
          if 0 < prevC then some ((l / prevC - 1) * 100) else none
        | none => none) = some ((l / prev - 1) * 100)
    rw [if_pos ⟨ne_of_gt hprev, hprev⟩]
  · intro prevC lastC hprev
    show (if 0 < prevC then some ((lastC / prevC - 1) * 100) else none)
      = some ((lastC / prevC - 1) * 100)
    rw [if_pos hprev]
  · show (if (95 : ℚ) ≠ 0 ∧ (0 : ℚ) < 95 then
        some (((100 : ℚ) / 95 - 1) * 100)
      else match (none : Option (ℚ × ℚ)) with
        | some (prevC, _) =>
          if 0 < prevC then some (((100 : ℚ) / prevC - 1) * 100) else none
        | none => none) = some ((100 : ℚ) / 19)
    rw [if_pos ⟨by norm_num, by norm_num⟩]
    simp only [Option.some.injEq]
    norm_num
  · rw [show (100 : ℚ) / 19 - 5.263 = 3 / 19000 by norm_num]
    rw [abs_of_pos (by norm_num)]
    norm_num
  · intro nowIso sym data hcp
    unfold parseYahoo
    rw [if_pos hcp]
    exact ⟨rfl, rfl⟩
  · intro nowIso sym data cp hcp
    unfold parseYahoo
    rw [if_neg (by simp [hcp])]
    exact ⟨rfl, rfl⟩

/-- Witness for C7 amended: the info-previous-close strategy at last=100,
prev=95, the candle fallback at closes (95, 100), and a concrete
`parse_yahoo` note/confidence check. -/
theorem c7_change_pct_amended_witness :
    yfDailyChangePct (some 95) (some (90, 99)) (some 100)
      = some ((100 / 95 - 1) * 100) ∧
    yfDailyChangePct none (some (95, 100)) none
      = some ((100 / 95 - 1) * 100) ∧
    (parseYahoo "t0" "IVVB11.SA"
        ⟨some (.fin 100), none, none, some "BRL", none⟩).status.confidence
      = "medium" ∧
    (parseYahoo "t0" "IVVB11.SA"
        ⟨some (.fin 100), none, none, some "BRL",
          some (.fin (100 / 19))⟩).status.confidence = "high" := by
  refine ⟨c7_change_pct_amended.1 100 95 (some (90, 99)) (by norm_num),
    c7_change_pct_amended.2.1 95 100 (by norm_num),
    (c7_change_pct_amended.2.2.2.1 "t0" "IVVB11.SA"
      ⟨some (.fin 100), none, none, some "BRL", none⟩ rfl).2,
    (c7_change_pct_amended.2.2.2.2 "t0" "IVVB11.SA"
      ⟨some (.fin 100), none, none, some "BRL", some (.fin (100 / 19))⟩
      (.fin (100 / 19)) rfl).2⟩

end Triadex
